import Mathlib

/-!
Shallow embedding of the `SimpleDEX` constant-product market maker
(Solidity contract in `src/unnamed/part_004`, lines 475-751) together with
proofs of the specified properties of its pricing, liquidity accounting and
reserve-update algorithms.

Modelling conventions:
* `uint256` amounts become `Nat`.  Solidity 0.8 arithmetic reverts on
  overflow and on division by zero; the claims below are stated on the
  success paths and carry the positivity hypotheses under which every
  division in the source has a positive divisor, so total `Nat` division
  agrees with the EVM semantics there.
* each `require(cond, msg)` becomes an `if cond` guard returning an
  explicit error value mirroring the message;
* the `mapping(address => uint256) liquidity` ledger becomes a function
  `Nat → Nat` updated with `Function.update`, and `msg.sender` / `to`
  become explicit `Nat` parameters;
* token transfers are external effects on the ERC-20 contracts, not on the
  pool state, and are therefore not part of the state transition.
-/

/-- Pool state of the `SimpleDEX` contract: the two reserves, the total
liquidity shares, and the per-owner liquidity-share ledger. -/
structure DexState where
  reserve0 : Nat
  reserve1 : Nat
  totalLiquidity : Nat
  liquidity : Nat → Nat

/-- Error kinds, one per distinct `require` message in the contract. -/
inductive DexError where
  | insufficientAmounts
  | insufficientLiquidityMinted
  | insufficientLiquidityAmount
  | insufficientLiquidityBalance
  | insufficientInputAmount
  | insufficientOutputAmount
  | insufficientLiquidity
deriving DecidableEq, Repr

/-- Constant `uint256 public constant FEE_BASIS_POINTS = 30;`. -/
def SimpleDEX.FEE_BASIS_POINTS : Nat := 30

/-- Constant `uint256 public constant BASIS_POINTS = 10000;`. -/
def SimpleDEX.BASIS_POINTS : Nat := 10000

/-- The loop of the Babylonian square root: while `x < z` set `z := x` and
`x := (y / x + x) / 2`, returning `z` on exit. -/
def SimpleDEX.sqrtGo (y z x : Nat) : Nat :=
  if h : x < z then SimpleDEX.sqrtGo y x ((y / x + x) / 2) else z
termination_by z
decreasing_by exact h

/-- Embedding of `function sqrt(uint256 y) internal pure returns (uint256 z)`,
the Babylonian method square root of the contract. -/
def SimpleDEX.sqrt (y : Nat) : Nat :=
  if y > 3 then SimpleDEX.sqrtGo y y (y / 2 + 1)
  else if y ≠ 0 then 1
  else 0

/-- Embedding of `function addLiquidity(uint256 amount0, uint256 amount1, address to)`. -/
def SimpleDEX.addLiquidity (st : DexState) (amount0 amount1 toAddr : Nat) :
    Except DexError (Nat × DexState) :=
  if amount0 > 0 ∧ amount1 > 0 then
    let liquidityMinted :=
      if st.totalLiquidity = 0 then
        SimpleDEX.sqrt (amount0 * amount1)
      else
        let liquidity0 := amount0 * st.totalLiquidity / st.reserve0
        let liquidity1 := amount1 * st.totalLiquidity / st.reserve1
        if liquidity0 < liquidity1 then liquidity0 else liquidity1
    if liquidityMinted > 0 then
      .ok (liquidityMinted,
        { reserve0 := st.reserve0 + amount0
          reserve1 := st.reserve1 + amount1
          totalLiquidity := st.totalLiquidity + liquidityMinted
          liquidity :=
            Function.update st.liquidity toAddr (st.liquidity toAddr + liquidityMinted) })
    else .error .insufficientLiquidityMinted
  else .error .insufficientAmounts

/-- Embedding of `function removeLiquidity(uint256 liquidityAmount, address to)`; the
`sender` argument models `msg.sender`, whose ledger entry is debited. -/
def SimpleDEX.removeLiquidity (st : DexState) (liquidityAmount sender : Nat) :
    Except DexError ((Nat × Nat) × DexState) :=
  if liquidityAmount > 0 then
    if st.liquidity sender ≥ liquidityAmount then
      let amount0 := liquidityAmount * st.reserve0 / st.totalLiquidity
      let amount1 := liquidityAmount * st.reserve1 / st.totalLiquidity
      if amount0 > 0 ∧ amount1 > 0 then
        .ok ((amount0, amount1),
          { reserve0 := st.reserve0 - amount0
            reserve1 := st.reserve1 - amount1
            totalLiquidity := st.totalLiquidity - liquidityAmount
            liquidity :=
              Function.update st.liquidity sender
                (st.liquidity sender - liquidityAmount) })
      else .error .insufficientAmounts
    else .error .insufficientLiquidityBalance
  else .error .insufficientLiquidityAmount

/-- Embedding of `function swapToken0ForToken1(uint256 amountIn, uint256 minAmountOut,
address to)`. -/
def SimpleDEX.swapToken0ForToken1 (st : DexState) (amountIn minAmountOut : Nat) :
    Except DexError (Nat × DexState) :=
  if amountIn > 0 then
    if st.reserve0 > 0 ∧ st.reserve1 > 0 then
      let amountInWithFee := amountIn * (SimpleDEX.BASIS_POINTS - SimpleDEX.FEE_BASIS_POINTS)
      let numerator := amountInWithFee * st.reserve1
      let denominator := st.reserve0 * SimpleDEX.BASIS_POINTS + amountInWithFee
      let amountOut := numerator / denominator
      if amountOut ≥ minAmountOut then
        if amountOut < st.reserve1 then
          .ok (amountOut,
            { st with
                reserve0 := st.reserve0 + amountIn
                reserve1 := st.reserve1 - amountOut })
        else .error .insufficientLiquidity
      else .error .insufficientOutputAmount
    else .error .insufficientLiquidity
  else .error .insufficientInputAmount

/-- Embedding of `function swapToken1ForToken0(uint256 amountIn, uint256 minAmountOut,
address to)`. -/
def SimpleDEX.swapToken1ForToken0 (st : DexState) (amountIn minAmountOut : Nat) :
    Except DexError (Nat × DexState) :=
  if amountIn > 0 then
    if st.reserve0 > 0 ∧ st.reserve1 > 0 then
      let amountInWithFee := amountIn * (SimpleDEX.BASIS_POINTS - SimpleDEX.FEE_BASIS_POINTS)
      let numerator := amountInWithFee * st.reserve0
      let denominator := st.reserve1 * SimpleDEX.BASIS_POINTS + amountInWithFee
      let amountOut := numerator / denominator
      if amountOut ≥ minAmountOut then
        if amountOut < st.reserve0 then
          .ok (amountOut,
            { st with
                reserve1 := st.reserve1 + amountIn
                reserve0 := st.reserve0 - amountOut })
        else .error .insufficientLiquidity
      else .error .insufficientOutputAmount
    else .error .insufficientLiquidity
  else .error .insufficientInputAmount

/-- Embedding of `function getAmountOut(uint256 amountIn, uint256 reserveIn, uint256
reserveOut) public pure returns (uint256 amountOut)`. -/
def SimpleDEX.getAmountOut (amountIn reserveIn reserveOut : Nat) :
    Except DexError Nat :=
  if amountIn > 0 then
    if reserveIn > 0 ∧ reserveOut > 0 then
      let amountInWithFee := amountIn * (SimpleDEX.BASIS_POINTS - SimpleDEX.FEE_BASIS_POINTS)
      let numerator := amountInWithFee * reserveOut
      let denominator := reserveIn * SimpleDEX.BASIS_POINTS + amountInWithFee
      .ok (numerator / denominator)
    else .error .insufficientLiquidity
  else .error .insufficientInputAmount

/-- One external call to the pool, with its `Nat`-modelled addresses. -/
inductive DexOp where
  | addLiq (amount0 amount1 toAddr : Nat)
  | removeLiq (liquidityAmount sender : Nat)
  | swap01 (amountIn minAmountOut : Nat)
  | swap10 (amountIn minAmountOut : Nat)

/-- Applying one call to the state: a reverted (`error`) call leaves the
state unchanged, a successful call commits the updated state. -/
def DexState.step (st : DexState) (op : DexOp) : DexState :=
  match op with
  | .addLiq a0 a1 toAddr =>
    match SimpleDEX.addLiquidity st a0 a1 toAddr with
    | .ok p => p.2
    | .error _ => st
  | .removeLiq s sender =>
    match SimpleDEX.removeLiquidity st s sender with
    | .ok p => p.2
    | .error _ => st
  | .swap01 aIn minOut =>
    match SimpleDEX.swapToken0ForToken1 st aIn minOut with
    | .ok p => p.2
    | .error _ => st
  | .swap10 aIn minOut =>
    match SimpleDEX.swapToken1ForToken0 st aIn minOut with
    | .ok p => p.2
    | .error _ => st

/-- State of a freshly constructed pool: zero reserves, no shares. -/
def DexState.init : DexState :=
  { reserve0 := 0, reserve1 := 0, totalLiquidity := 0, liquidity := fun _ => 0 }

/-- Running a sequence of calls from a state. -/
def DexState.run (st : DexState) (ops : List DexOp) : DexState :=
  ops.foldl DexState.step st

/-- States reachable from the freshly constructed pool. -/
inductive DexState.Reachable : DexState → Prop
  | init : DexState.Reachable DexState.init
  | step {st : DexState} (op : DexOp) :
      DexState.Reachable st → DexState.Reachable (st.step op)

/-- The op is one of the two swap directions (no liquidity change). -/
def DexOp.IsSwap : DexOp → Prop
  | .swap01 _ _ => True
  | .swap10 _ _ => True
  | _ => False

/-- Predicate stating that `S` contains every owner with a nonzero ledger entry. -/
def IsSupport (f : Nat → Nat) (S : Finset Nat) : Prop :=
  ∀ o, o ∉ S → f o = 0

/-- The sum of all owners' share balances equals `totalLiquidity`. -/
def ShareConservation (st : DexState) : Prop :=
  ∃ S : Finset Nat, IsSupport st.liquidity S ∧
    (∑ o in S, st.liquidity o) = st.totalLiquidity

/-- Arithmetic-geometric mean inequality over the naturals. -/
lemma nat_two_mul_le_sq_add (a b : Nat) : 2 * (a * b) ≤ a * a + b * b := by
  rcases Nat.le_total a b with h | h
  · obtain ⟨c, rfl⟩ := Nat.le.dest h
    nlinarith
  · obtain ⟨c, rfl⟩ := Nat.le.dest h
    nlinarith

/-- One Babylonian iterate from any positive point stays at or above the
integer square root. -/
lemma sqrt_le_iterate (y x : Nat) (hx : 0 < x) :
    Nat.sqrt y ≤ (y / x + x) / 2 := by
  set s := Nat.sqrt y with hs
  have hsy : s * s ≤ y := Nat.sqrt_le y
  have hkey : 2 * s ≤ y / x + x := by
    rcases Nat.le_total (2 * s) x with h | h
    · exact le_trans h (Nat.le_add_left x _)
    · have hsub : (2 * s - x) * x ≤ s * s := by
        have hd : (2 * s - x) + x = 2 * s := Nat.sub_add_cancel h
        have hA := nat_two_mul_le_sq_add (2 * s - x) x
        nlinarith [hA, hd]
      have hdiv : 2 * s - x ≤ y / x :=
        (Nat.le_div_iff_mul_le hx).mpr (le_trans hsub hsy)
      calc 2 * s = (2 * s - x) + x := (Nat.sub_add_cancel h).symm
        _ ≤ y / x + x := Nat.add_le_add_right hdiv x
  refine (Nat.le_div_iff_mul_le (by norm_num : (0:Nat) < 2)).mpr ?_
  calc s * 2 = 2 * s := Nat.mul_comm s 2
    _ ≤ y / x + x := hkey

/-- The Babylonian loop, started at or above the integer square root,
returns exactly the integer square root. -/
lemma sqrtGo_eq_sqrt (y : Nat) (hy : 0 < y) :
    ∀ z x, Nat.sqrt y ≤ z → Nat.sqrt y ≤ x → (z ≤ x → z * z ≤ y) →
      SimpleDEX.sqrtGo y z x = Nat.sqrt y := by
  intro z
  induction z using Nat.strong_induction_on with
  | _ z ih =>
    intro x hz hx hzx
    rw [SimpleDEX.sqrtGo]
    split
    · next hlt =>
      have hx0 : 0 < x := lt_of_lt_of_le (Nat.sqrt_pos.mpr hy) hx
      refine ih x hlt ((y / x + x) / 2) hx (sqrt_le_iterate y x hx0) ?_
      intro hle
      have h2 : x * 2 ≤ y / x + x :=
        (Nat.le_div_iff_mul_le (by norm_num : (0:Nat) < 2)).mp hle
      rw [Nat.mul_two] at h2
      exact (Nat.le_div_iff_mul_le hx0).mp (Nat.le_of_add_le_add_right h2)
    · next hge =>
      have hzx2 : z * z ≤ y := hzx (by omega)
      exact le_antisymm (Nat.le_sqrt.mpr hzx2) hz

/-- Integer square root of 1, 2 or 3 is 1. -/
lemma nat_sqrt_small (y : Nat) (h1 : 0 < y) (h2 : y < 4) : Nat.sqrt y = 1 := by
  refine le_antisymm ?_ (Nat.sqrt_pos.mpr h1)
  have : Nat.sqrt y < 2 := Nat.sqrt_lt.mpr (by omega)
  omega

/-- The contract's Babylonian square root computes the exact integer
square root on every input. -/
lemma sqrt_eq_nat_sqrt (y : Nat) : SimpleDEX.sqrt y = Nat.sqrt y := by
  by_cases h : y > 3
  · have hy : 0 < y := by omega
    have hsy : Nat.sqrt y * Nat.sqrt y ≤ y := Nat.sqrt_le y
    have hamgm : 2 * (Nat.sqrt y * 1) ≤ Nat.sqrt y * Nat.sqrt y + 1 * 1 :=
      nat_two_mul_le_sq_add (Nat.sqrt y) 1
    have hzx : Nat.sqrt y ≤ y / 2 + 1 := by omega
    have hle : Nat.sqrt y ≤ y := Nat.sqrt_le_self y
    rw [SimpleDEX.sqrt, if_pos h]
    refine sqrtGo_eq_sqrt y hy y (y / 2 + 1) hle hzx ?_
    intro hcon
    exfalso
    omega
  · rcases Nat.eq_zero_or_pos y with h0 | h0
    · subst h0
      simp [SimpleDEX.sqrt]
    · rw [SimpleDEX.sqrt, if_neg h, if_pos (by omega : y ≠ 0),
        nat_sqrt_small y h0 (by omega)]

/-- Unfolding a successful `swapToken0ForToken1`: the guards it passed and
the state it produced. -/
lemma swap01_ok {st : DexState} {amountIn minAmountOut out : Nat} {st2 : DexState}
    (h : SimpleDEX.swapToken0ForToken1 st amountIn minAmountOut = .ok (out, st2)) :
    0 < amountIn ∧ 0 < st.reserve0 ∧ 0 < st.reserve1 ∧
      out = amountIn * 9970 * st.reserve1 / (st.reserve0 * 10000 + amountIn * 9970) ∧
      minAmountOut ≤ out ∧ out < st.reserve1 ∧
      st2 = { st with
        reserve0 := st.reserve0 + amountIn
        reserve1 := st.reserve1 - out } := by
  rw [SimpleDEX.swapToken0ForToken1] at h
  simp only [] at h
  split_ifs at h with h1 h2 h3 h4
  · rw [Except.ok.injEq, Prod.mk.injEq] at h
    obtain ⟨hout, hst⟩ := h
    subst hout
    subst hst
    refine ⟨h1, h2.1, h2.2, ?_, h3, h4, rfl⟩
    norm_num [SimpleDEX.BASIS_POINTS, SimpleDEX.FEE_BASIS_POINTS]

/-- Unfolding a successful `swapToken1ForToken0`: the guards it passed and
the state it produced. -/
lemma swap10_ok {st : DexState} {amountIn minAmountOut out : Nat} {st2 : DexState}
    (h : SimpleDEX.swapToken1ForToken0 st amountIn minAmountOut = .ok (out, st2)) :
    0 < amountIn ∧ 0 < st.reserve0 ∧ 0 < st.reserve1 ∧
      out = amountIn * 9970 * st.reserve0 / (st.reserve1 * 10000 + amountIn * 9970) ∧
      minAmountOut ≤ out ∧ out < st.reserve0 ∧
      st2 = { st with
        reserve1 := st.reserve1 + amountIn
        reserve0 := st.reserve0 - out } := by
  rw [SimpleDEX.swapToken1ForToken0] at h
  simp only [] at h
  split_ifs at h with h1 h2 h3 h4
  · rw [Except.ok.injEq, Prod.mk.injEq] at h
    obtain ⟨hout, hst⟩ := h
    subst hout
    subst hst
    refine ⟨h1, h2.1, h2.2, ?_, h3, h4, rfl⟩
    norm_num [SimpleDEX.BASIS_POINTS, SimpleDEX.FEE_BASIS_POINTS]

/-- The constant-product output is strictly smaller than the output
reserve whenever both reserves and the input are positive. -/
lemma amountOut_lt_reserveOut (amountIn reserveIn reserveOut : Nat)
    (ha : 0 < amountIn) (hin : 0 < reserveIn) (hout : 0 < reserveOut) :
    amountIn * 9970 * reserveOut / (reserveIn * 10000 + amountIn * 9970)
      < reserveOut := by
  have hd : 0 < reserveIn * 10000 + amountIn * 9970 := by positivity
  rw [Nat.div_lt_iff_lt_mul hd]
  nlinarith

/-- Strict growth of the constant product: after paying out the priced
amount against the incoming amount, the reserve product strictly grows. -/
lemma k_strict_growth (r0 r1 aIn : Nat)
    (h0 : 0 < r0) (h1 : 0 < r1) (ha : 0 < aIn) :
    r0 * r1 <
      (r0 + aIn) * (r1 - aIn * 9970 * r1 / (r0 * 10000 + aIn * 9970)) := by
  set d := r0 * 10000 + aIn * 9970 with hd
  have hdpos : 0 < d := by positivity
  set out := aIn * 9970 * r1 / d with hout
  have houtlt : out < r1 := amountOut_lt_reserveOut aIn r0 r1 ha h0 h1
  have hmul : out * d ≤ aIn * 9970 * r1 := Nat.div_mul_le_self _ d
  have hkey : (r0 + aIn) * out < aIn * r1 := by
    have hstep : (r0 + aIn) * (out * d) ≤ (r0 + aIn) * (aIn * 9970 * r1) :=
      Nat.mul_le_mul_left _ hmul
    have hgap : (r0 + aIn) * (aIn * 9970 * r1) < (aIn * r1) * d := by
      rw [hd]
      have hpos : 0 < aIn * r1 * r0 := by positivity
      nlinarith [hpos]
    have : (r0 + aIn) * out * d < (aIn * r1) * d := by
      calc (r0 + aIn) * out * d = (r0 + aIn) * (out * d) := by ring
        _ ≤ (r0 + aIn) * (aIn * 9970 * r1) := hstep
        _ < (aIn * r1) * d := hgap
    exact Nat.lt_of_mul_lt_mul_right this
  obtain ⟨u, hu⟩ := Nat.le.dest (Nat.le_of_lt houtlt)
  have hru : r1 - out = u := by omega
  rw [hru, ← hu]
  nlinarith [hkey]

/-- Any single balance is at most the conserved total. -/
lemma balance_le_total {st : DexState} (h : ShareConservation st) (o : Nat) :
    st.liquidity o ≤ st.totalLiquidity := by
  obtain ⟨S, hsupp, hsum⟩ := h
  by_cases ho : o ∈ S
  · calc st.liquidity o ≤ ∑ x in S, st.liquidity x :=
        Finset.single_le_sum (fun i _ => Nat.zero_le _) ho
      _ = st.totalLiquidity := hsum
  · rw [hsupp o ho]
    exact Nat.zero_le _

/-- Writing one ledger entry: the new support and the new total, expressed
without natural subtraction. -/
lemma sum_update_support (f : Nat → Nat) (S : Finset Nat) (hsupp : IsSupport f S)
    (T : Nat) (hsum : ∑ x in S, f x = T) (o v : Nat) :
    IsSupport (Function.update f o v) (insert o S) ∧
      (∑ x in insert o S, Function.update f o v x) + f o = T + v := by
  constructor
  · intro o' ho'
    have hne : o' ≠ o := fun hcon => ho' (hcon ▸ Finset.mem_insert_self o S)
    rw [Function.update_noteq hne]
    exact hsupp o' (fun hmem => ho' (Finset.mem_insert_of_mem hmem))
  · have hmem : o ∈ insert o S := Finset.mem_insert_self o S
    have h1 : ∑ x in insert o S, Function.update f o v x
        = v + ∑ x in (insert o S).erase o, f x := by
      rw [Finset.sum_update_of_mem hmem, Finset.erase_eq]
    have h2 : f o + ∑ x in (insert o S).erase o, f x = ∑ x in insert o S, f x :=
      Finset.add_sum_erase _ f hmem
    have h3 : ∑ x in insert o S, f x = ∑ x in S, f x :=
      Finset.sum_insert_of_eq_zero_if_not_mem (fun hno => hsupp o hno)
    omega

/-- Unfolding a successful `addLiquidity`: the guards it passed, the shares
minted, and the state it produced. -/
lemma addLiquidity_ok {st : DexState} {a b toAddr m : Nat} {st2 : DexState}
    (h : SimpleDEX.addLiquidity st a b toAddr = .ok (m, st2)) :
    0 < a ∧ 0 < b ∧ 0 < m ∧
      m = (if st.totalLiquidity = 0 then SimpleDEX.sqrt (a * b)
        else min (a * st.totalLiquidity / st.reserve0)
          (b * st.totalLiquidity / st.reserve1)) ∧
      st2 = { reserve0 := st.reserve0 + a
              reserve1 := st.reserve1 + b
              totalLiquidity := st.totalLiquidity + m
              liquidity := Function.update st.liquidity toAddr (st.liquidity toAddr + m) } := by
  rw [SimpleDEX.addLiquidity] at h
  simp only [] at h
  split_ifs at h with h1 h2 h3 h4 h5 h6
  all_goals rw [Except.ok.injEq, Prod.mk.injEq] at h
  all_goals obtain ⟨hm, hst⟩ := h
  all_goals subst hm
  all_goals subst hst
  · exact ⟨h1.1, h1.2, h3, by rw [if_pos h2], rfl⟩
  · exact ⟨h1.1, h1.2, h5, by rw [if_neg h2]; exact (Nat.min_eq_left (Nat.le_of_lt h4)).symm, rfl⟩
  · exact ⟨h1.1, h1.2, h6, by rw [if_neg h2]; exact (Nat.min_eq_right (Nat.le_of_not_lt h4)).symm, rfl⟩

/-- Unfolding a successful `removeLiquidity`: the guards it passed, the
amounts returned, and the state it produced. -/
lemma removeLiquidity_ok {st : DexState} {s sender a0 a1 : Nat} {st2 : DexState}
    (h : SimpleDEX.removeLiquidity st s sender = .ok ((a0, a1), st2)) :
    0 < s ∧ s ≤ st.liquidity sender ∧
      a0 = s * st.reserve0 / st.totalLiquidity ∧
      a1 = s * st.reserve1 / st.totalLiquidity ∧
      0 < a0 ∧ 0 < a1 ∧
      st2 = { reserve0 := st.reserve0 - a0
              reserve1 := st.reserve1 - a1
              totalLiquidity := st.totalLiquidity - s
              liquidity := Function.update st.liquidity sender (st.liquidity sender - s) } := by
  rw [SimpleDEX.removeLiquidity] at h
  simp only [] at h
  split_ifs at h with h1 h2 h3
  rw [Except.ok.injEq, Prod.mk.injEq, Prod.mk.injEq] at h
  obtain ⟨⟨ha0, ha1⟩, hst⟩ := h
  subst ha0
  subst ha1
  subst hst
  exact ⟨h1, h2, rfl, rfl, h3.1, h3.2, rfl⟩

/-- The pool invariant: the ledger sums to `totalLiquidity`, and a pool
with outstanding shares has both reserves positive. -/
def PoolInv (st : DexState) : Prop :=
  ShareConservation st ∧
    (0 < st.totalLiquidity → 0 < st.reserve0 ∧ 0 < st.reserve1)

/-- A successful `addLiquidity` call steps to its result state. -/
lemma step_ok_addLiq {st : DexState} {a0 a1 toAddr m : Nat} {st2 : DexState}
    (hexec : SimpleDEX.addLiquidity st a0 a1 toAddr = .ok (m, st2)) :
    st.step (.addLiq a0 a1 toAddr) = st2 := by
  simp [DexState.step, hexec]

/-- A reverted `addLiquidity` call leaves the state unchanged. -/
lemma step_err_addLiq {st : DexState} {a0 a1 toAddr : Nat} {e : DexError}
    (hexec : SimpleDEX.addLiquidity st a0 a1 toAddr = .error e) :
    st.step (.addLiq a0 a1 toAddr) = st := by
  simp [DexState.step, hexec]

/-- A successful `removeLiquidity` call steps to its result state. -/
lemma step_ok_removeLiq {st : DexState} {s sender a0 a1 : Nat} {st2 : DexState}
    (hexec : SimpleDEX.removeLiquidity st s sender = .ok ((a0, a1), st2)) :
    st.step (.removeLiq s sender) = st2 := by
  simp [DexState.step, hexec]

/-- A reverted `removeLiquidity` call leaves the state unchanged. -/
lemma step_err_removeLiq {st : DexState} {s sender : Nat} {e : DexError}
    (hexec : SimpleDEX.removeLiquidity st s sender = .error e) :
    st.step (.removeLiq s sender) = st := by
  simp [DexState.step, hexec]

/-- A successful `swapToken0ForToken1` call steps to its result state. -/
lemma step_ok_swap01 {st : DexState} {aIn minOut out : Nat} {st2 : DexState}
    (hexec : SimpleDEX.swapToken0ForToken1 st aIn minOut = .ok (out, st2)) :
    st.step (.swap01 aIn minOut) = st2 := by
  simp [DexState.step, hexec]

/-- A reverted `swapToken0ForToken1` call leaves the state unchanged. -/
lemma step_err_swap01 {st : DexState} {aIn minOut : Nat} {e : DexError}
    (hexec : SimpleDEX.swapToken0ForToken1 st aIn minOut = .error e) :
    st.step (.swap01 aIn minOut) = st := by
  simp [DexState.step, hexec]

/-- A successful `swapToken1ForToken0` call steps to its result state. -/
lemma step_ok_swap10 {st : DexState} {aIn minOut out : Nat} {st2 : DexState}
    (hexec : SimpleDEX.swapToken1ForToken0 st aIn minOut = .ok (out, st2)) :
    st.step (.swap10 aIn minOut) = st2 := by
  simp [DexState.step, hexec]

/-- A reverted `swapToken1ForToken0` call leaves the state unchanged. -/
lemma step_err_swap10 {st : DexState} {aIn minOut : Nat} {e : DexError}
    (hexec : SimpleDEX.swapToken1ForToken0 st aIn minOut = .error e) :
    st.step (.swap10 aIn minOut) = st := by
  simp [DexState.step, hexec]

/-- Every pool call preserves conservation of the share ledger. -/
lemma conservation_step (st : DexState) (op : DexOp)
    (h : ShareConservation st) : ShareConservation (st.step op) := by
  obtain ⟨S, hsupp, hsum⟩ := h
  cases op with
  | addLiq a0 a1 toAddr =>
    cases hexec : SimpleDEX.addLiquidity st a0 a1 toAddr with
    | error e => rw [step_err_addLiq hexec]; exact ⟨S, hsupp, hsum⟩
    | ok p =>
      obtain ⟨m, st2⟩ := p
      rw [step_ok_addLiq hexec]
      obtain ⟨hpa, hpb, hpm, hmval, hst2⟩ := addLiquidity_ok hexec
      subst hst2
      obtain ⟨hsupp2, hsum2⟩ :=
        sum_update_support st.liquidity S hsupp st.totalLiquidity hsum
          toAddr (st.liquidity toAddr + m)
      refine ⟨insert toAddr S, hsupp2, ?_⟩
      show (∑ x in insert toAddr S,
        Function.update st.liquidity toAddr (st.liquidity toAddr + m) x)
          = st.totalLiquidity + m
      omega
  | removeLiq s sender =>
    cases hexec : SimpleDEX.removeLiquidity st s sender with
    | error e => rw [step_err_removeLiq hexec]; exact ⟨S, hsupp, hsum⟩
    | ok p =>
      obtain ⟨⟨a0, a1⟩, st2⟩ := p
      rw [step_ok_removeLiq hexec]
      obtain ⟨hps, hbal, hpa0, hpa1, hz0, hz1, hst2⟩ := removeLiquidity_ok hexec
      subst hst2
      have hb : st.liquidity sender ≤ st.totalLiquidity :=
        balance_le_total ⟨S, hsupp, hsum⟩ sender
      obtain ⟨hsupp2, hsum2⟩ :=
        sum_update_support st.liquidity S hsupp st.totalLiquidity hsum
          sender (st.liquidity sender - s)
      refine ⟨insert sender S, hsupp2, ?_⟩
      show (∑ x in insert sender S,
        Function.update st.liquidity sender (st.liquidity sender - s) x)
          = st.totalLiquidity - s
      omega
  | swap01 aIn minOut =>
    cases hexec : SimpleDEX.swapToken0ForToken1 st aIn minOut with
    | error e => rw [step_err_swap01 hexec]; exact ⟨S, hsupp, hsum⟩
    | ok p =>
      obtain ⟨out, st2⟩ := p
      rw [step_ok_swap01 hexec]
      obtain ⟨hp1, hp2, hp3, hp4, hp5, hp6, hst2⟩ := swap01_ok hexec
      subst hst2
      exact ⟨S, hsupp, hsum⟩
  | swap10 aIn minOut =>
    cases hexec : SimpleDEX.swapToken1ForToken0 st aIn minOut with
    | error e => rw [step_err_swap10 hexec]; exact ⟨S, hsupp, hsum⟩
    | ok p =>
      obtain ⟨out, st2⟩ := p
      rw [step_ok_swap10 hexec]
      obtain ⟨hp1, hp2, hp3, hp4, hp5, hp6, hst2⟩ := swap10_ok hexec
      subst hst2
      exact ⟨S, hsupp, hsum⟩

/-- Every pool call preserves the pool invariant. -/
lemma inv_step (st : DexState) (op : DexOp) (h : PoolInv st) :
    PoolInv (st.step op) := by
  refine ⟨conservation_step st op h.1, ?_⟩
  cases op with
  | addLiq a0 a1 toAddr =>
    cases hexec : SimpleDEX.addLiquidity st a0 a1 toAddr with
    | error e => rw [step_err_addLiq hexec]; exact h.2
    | ok p =>
      obtain ⟨m, st2⟩ := p
      rw [step_ok_addLiq hexec]
      obtain ⟨hpa, hpb, hpm, hmval, hst2⟩ := addLiquidity_ok hexec
      subst hst2
      intro hT2
      constructor
      · show 0 < st.reserve0 + a0
        omega
      · show 0 < st.reserve1 + a1
        omega
  | removeLiq s sender =>
    cases hexec : SimpleDEX.removeLiquidity st s sender with
    | error e => rw [step_err_removeLiq hexec]; exact h.2
    | ok p =>
      obtain ⟨⟨a0, a1⟩, st2⟩ := p
      rw [step_ok_removeLiq hexec]
      obtain ⟨hs, hbal, ha0, ha1, hz0, hz1, hst2⟩ := removeLiquidity_ok hexec
      subst hst2
      intro hT2
      have hT2b : 0 < st.totalLiquidity - s := hT2
      have hb : st.liquidity sender ≤ st.totalLiquidity :=
        balance_le_total h.1 sender
      have hT : 0 < st.totalLiquidity := by omega
      obtain ⟨hr0, hr1⟩ := h.2 hT
      have hslt : s < st.totalLiquidity := by omega
      have hlt0 : a0 < st.reserve0 := by
        rw [ha0, Nat.div_lt_iff_lt_mul hT]
        calc s * st.reserve0 < st.totalLiquidity * st.reserve0 :=
          (Nat.mul_lt_mul_right hr0).mpr hslt
          _ = st.reserve0 * st.totalLiquidity := Nat.mul_comm _ _
      have hlt1 : a1 < st.reserve1 := by
        rw [ha1, Nat.div_lt_iff_lt_mul hT]
        calc s * st.reserve1 < st.totalLiquidity * st.reserve1 :=
          (Nat.mul_lt_mul_right hr1).mpr hslt
          _ = st.reserve1 * st.totalLiquidity := Nat.mul_comm _ _
      constructor
      · show 0 < st.reserve0 - a0
        omega
      · show 0 < st.reserve1 - a1
        omega
  | swap01 aIn minOut =>
    cases hexec : SimpleDEX.swapToken0ForToken1 st aIn minOut with
    | error e => rw [step_err_swap01 hexec]; exact h.2
    | ok p =>
      obtain ⟨out, st2⟩ := p
      rw [step_ok_swap01 hexec]
      obtain ⟨ha, hr0, hr1, hof, hmin, houtlt, hst2⟩ := swap01_ok hexec
      subst hst2
      intro hT2
      constructor
      · show 0 < st.reserve0 + aIn
        omega
      · show 0 < st.reserve1 - out
        omega
  | swap10 aIn minOut =>
    cases hexec : SimpleDEX.swapToken1ForToken0 st aIn minOut with
    | error e => rw [step_err_swap10 hexec]; exact h.2
    | ok p =>
      obtain ⟨out, st2⟩ := p
      rw [step_ok_swap10 hexec]
      obtain ⟨ha, hr0, hr1, hof, hmin, houtlt, hst2⟩ := swap10_ok hexec
      subst hst2
      intro hT2
      constructor
      · show 0 < st.reserve0 - out
        omega
      · show 0 < st.reserve1 + aIn
        omega

/-- The freshly constructed pool satisfies the invariant. -/
lemma inv_init : PoolInv DexState.init := by
  refine ⟨⟨∅, fun o _ => rfl, by simp [DexState.init]⟩, ?_⟩
  intro hcon
  exact absurd hcon (by simp [DexState.init])

/-- Every reachable state satisfies the pool invariant. -/
lemma reachable_inv (st : DexState) (h : DexState.Reachable st) : PoolInv st := by
  induction h with
  | init => exact inv_init
  | step op hst ih => exact inv_step _ op ih

/-- Evaluating the pure quote on positive arguments. -/
lemma getAmountOut_pos_eval (amountIn reserveIn reserveOut : Nat)
    (ha : 0 < amountIn) (hin : 0 < reserveIn) (hout : 0 < reserveOut) :
    SimpleDEX.getAmountOut amountIn reserveIn reserveOut
      = .ok (amountIn * 9970 * reserveOut
          / (reserveIn * 10000 + amountIn * 9970)) := by
  rw [SimpleDEX.getAmountOut, if_pos ha, if_pos ⟨hin, hout⟩]
  norm_num [SimpleDEX.BASIS_POINTS, SimpleDEX.FEE_BASIS_POINTS]

/-- The ternary `a < b ? a : b` of the source is the minimum. -/
lemma ite_lt_eq_min (a b : Nat) : (if a < b then a else b) = min a b := by
  rcases Nat.lt_or_ge a b with h | h
  · rw [if_pos h, Nat.min_eq_left (Nat.le_of_lt h)]
  · rw [if_neg (Nat.not_lt.mpr h), Nat.min_eq_right h]

/-- A successful direction-0→1 swap strictly grows the reserve product. -/
lemma swap01_k_lt {st : DexState} {amountIn minOut out : Nat} {st2 : DexState}
    (h : SimpleDEX.swapToken0ForToken1 st amountIn minOut = .ok (out, st2)) :
    st.reserve0 * st.reserve1 < st2.reserve0 * st2.reserve1 := by
  obtain ⟨ha, h0, h1, hof, hmin, houtlt, hst2⟩ := swap01_ok h
  subst hst2
  show st.reserve0 * st.reserve1 < (st.reserve0 + amountIn) * (st.reserve1 - out)
  subst hof
  exact k_strict_growth st.reserve0 st.reserve1 amountIn h0 h1 ha

/-- A successful direction-1→0 swap strictly grows the reserve product. -/
lemma swap10_k_lt {st : DexState} {amountIn minOut out : Nat} {st2 : DexState}
    (h : SimpleDEX.swapToken1ForToken0 st amountIn minOut = .ok (out, st2)) :
    st.reserve0 * st.reserve1 < st2.reserve0 * st2.reserve1 := by
  obtain ⟨ha, h0, h1, hof, hmin, houtlt, hst2⟩ := swap10_ok h
  subst hst2
  show st.reserve0 * st.reserve1 < (st.reserve0 - out) * (st.reserve1 + amountIn)
  subst hof
  calc st.reserve0 * st.reserve1
      = st.reserve1 * st.reserve0 := Nat.mul_comm _ _
    _ < (st.reserve1 + amountIn) * (st.reserve0
          - amountIn * 9970 * st.reserve0 / (st.reserve1 * 10000 + amountIn * 9970)) :=
        k_strict_growth st.reserve1 st.reserve0 amountIn h1 h0 ha
    _ = (st.reserve0
          - amountIn * 9970 * st.reserve0 / (st.reserve1 * 10000 + amountIn * 9970))
          * (st.reserve1 + amountIn) := Nat.mul_comm _ _

/-- A swap step (in either direction, whether it commits or reverts) never
shrinks the reserve product. -/
lemma k_mono_step (st : DexState) (op : DexOp) (hsw : op.IsSwap) :
    st.reserve0 * st.reserve1 ≤ (st.step op).reserve0 * (st.step op).reserve1 := by
  cases op with
  | addLiq a b t => exact hsw.elim
  | removeLiq s o => exact hsw.elim
  | swap01 aIn minOut =>
    cases hexec : SimpleDEX.swapToken0ForToken1 st aIn minOut with
    | error e => rw [step_err_swap01 hexec]
    | ok p =>
      obtain ⟨out, st2⟩ := p
      rw [step_ok_swap01 hexec]
      exact Nat.le_of_lt (swap01_k_lt hexec)
  | swap10 aIn minOut =>
    cases hexec : SimpleDEX.swapToken1ForToken0 st aIn minOut with
    | error e => rw [step_err_swap10 hexec]
    | ok p =>
      obtain ⟨out, st2⟩ := p
      rw [step_ok_swap10 hexec]
      exact Nat.le_of_lt (swap10_k_lt hexec)

/-- A concrete pool used as a test vector: reserves 1000/1000, seeded by a
first deposit of 1000 shares held by owner 0. -/
def poolSeeded : DexState :=
  { reserve0 := 1000
    reserve1 := 1000
    totalLiquidity := 1000
    liquidity := Function.update (fun _ => 0) 0 1000 }

/-- C1: on a seeded pool with positive input, a swap in either direction
returns exactly `floor(amountIn * 9970 * reserveOut / (reserveIn * 10000 +
amountIn * 9970))`, and the pure quote `getAmountOut` returns the same
value on the same arguments. -/
theorem swap_pricing_formula (st : DexState) (amountIn minOut : Nat)
    (h0 : 0 < st.reserve0) (h1 : 0 < st.reserve1) (ha : 0 < amountIn) :
    (∀ out st2, SimpleDEX.swapToken0ForToken1 st amountIn minOut = .ok (out, st2) →
      out = amountIn * 9970 * st.reserve1 / (st.reserve0 * 10000 + amountIn * 9970)) ∧
    (∀ out st2, SimpleDEX.swapToken1ForToken0 st amountIn minOut = .ok (out, st2) →
      out = amountIn * 9970 * st.reserve0 / (st.reserve1 * 10000 + amountIn * 9970)) ∧
    SimpleDEX.getAmountOut amountIn st.reserve0 st.reserve1
      = .ok (amountIn * 9970 * st.reserve1 / (st.reserve0 * 10000 + amountIn * 9970)) ∧
    SimpleDEX.getAmountOut amountIn st.reserve1 st.reserve0
      = .ok (amountIn * 9970 * st.reserve0 / (st.reserve1 * 10000 + amountIn * 9970)) :=
  ⟨fun _ _ h => (swap01_ok h).2.2.2.1,
   fun _ _ h => (swap10_ok h).2.2.2.1,
   getAmountOut_pos_eval amountIn st.reserve0 st.reserve1 ha h0 h1,
   getAmountOut_pos_eval amountIn st.reserve1 st.reserve0 ha h1 h0⟩

/-- Witness for C1 on concrete inputs: quoting 100 against reserves
(1000, 1000) yields 90. -/
theorem swap_pricing_formula_witness :
    SimpleDEX.getAmountOut 100 1000 1000 = .ok 90 :=
  (swap_pricing_formula poolSeeded 100 0
    (by decide) (by decide) (by decide)).2.2.1

/-- C2: every successful swap strictly increases the product
`reserve0 * reserve1`, and over any sequence of swap calls (no liquidity
changes) the product never decreases. -/
theorem swap_k_monotonic :
    (∀ st amountIn minOut out st2,
      SimpleDEX.swapToken0ForToken1 st amountIn minOut = .ok (out, st2) →
        st.reserve0 * st.reserve1 < st2.reserve0 * st2.reserve1) ∧
    (∀ st amountIn minOut out st2,
      SimpleDEX.swapToken1ForToken0 st amountIn minOut = .ok (out, st2) →
        st.reserve0 * st.reserve1 < st2.reserve0 * st2.reserve1) ∧
    (∀ (st : DexState) (ops : List DexOp), (∀ op ∈ ops, op.IsSwap) →
      st.reserve0 * st.reserve1 ≤ (st.run ops).reserve0 * (st.run ops).reserve1) := by
  refine ⟨fun _ _ _ _ _ h => swap01_k_lt h, fun _ _ _ _ _ h => swap10_k_lt h, ?_⟩
  intro st ops
  induction ops generalizing st with
  | nil => intro hsw; exact Nat.le_refl _
  | cons op rest ih =>
    intro hsw
    have h1 : op.IsSwap := hsw op (List.mem_cons_self op rest)
    have h2 : ∀ o ∈ rest, o.IsSwap := fun o ho => hsw o (List.mem_cons_of_mem op ho)
    calc st.reserve0 * st.reserve1
        ≤ (st.step op).reserve0 * (st.step op).reserve1 := k_mono_step st op h1
      _ ≤ ((st.step op).run rest).reserve0 * ((st.step op).run rest).reserve1 :=
          ih (st.step op) h2

/-- Witness for C2 on concrete inputs: the swap of 100 against (1000, 1000)
moves the product from 1000000 to 1100 * 910 = 1001000. -/
theorem swap_k_monotonic_witness :
    (1000 : Nat) * 1000 < 1100 * 910 ∧
    (1000 : Nat) * 1000
      ≤ (poolSeeded.run [DexOp.swap01 100 0]).reserve0
        * (poolSeeded.run [DexOp.swap01 100 0]).reserve1 :=
  ⟨swap_k_monotonic.1 poolSeeded 100 0 90
      { reserve0 := 1100, reserve1 := 910, totalLiquidity := 1000
        liquidity := Function.update (fun _ => 0) 0 1000 } rfl,
   swap_k_monotonic.2.2 poolSeeded [DexOp.swap01 100 0]
      (by intro op hop; simp only [List.mem_singleton] at hop; subst hop; trivial)⟩

/-- C3 counterexample: swapping 100 in direction 0→1 against reserves
(1000, 1000) does NOT return 499 with post-swap reserves (1100, 501); the
actual result of the code is (90, 1100, 910). -/
theorem swap_scenario2_counterexample :
    (SimpleDEX.swapToken0ForToken1 poolSeeded 100 0).toOption.map
        (fun p => (p.1, p.2.reserve0, p.2.reserve1)) ≠ some (499, 1100, 501) := by
  decide

/-- C3 amended: swapping 100 in direction 0→1 against reserves (1000, 1000)
returns `amountOut = floor(100 * 9970 * 1000 / (1000 * 10000 + 100 * 9970))
= 90` and the post-swap reserves are (1100, 910). -/
theorem swap_scenario2_amended :
    (SimpleDEX.swapToken0ForToken1 poolSeeded 100 0).toOption.map
        (fun p => (p.1, p.2.reserve0, p.2.reserve1)) = some (90, 1100, 910) := by
  decide

/-- C4: on the first deposit (`totalLiquidity = 0`) with positive amounts,
the shares minted are exactly the integer square root of the product of
the amounts, and the `InsufficientLiquidityMinted` failure occurs exactly
when that square root is zero (hence never, as the product is positive). -/
theorem addLiquidity_first_deposit_sqrt (st : DexState) (a b toAddr : Nat)
    (ha : 0 < a) (hb : 0 < b) (hT : st.totalLiquidity = 0) :
    (∀ m st2, SimpleDEX.addLiquidity st a b toAddr = .ok (m, st2) →
      m = Nat.sqrt (a * b)) ∧
    (SimpleDEX.addLiquidity st a b toAddr = .error .insufficientLiquidityMinted
      ↔ Nat.sqrt (a * b) = 0) := by
  have hpos : 0 < Nat.sqrt (a * b) := Nat.sqrt_pos.mpr (Nat.mul_pos ha hb)
  have heval : ∀ m st2, SimpleDEX.addLiquidity st a b toAddr = .ok (m, st2) →
      m = Nat.sqrt (a * b) := by
    intro m st2 h
    obtain ⟨-, -, -, hm, -⟩ := addLiquidity_ok h
    rw [hm, if_pos hT, sqrt_eq_nat_sqrt]
  refine ⟨heval, ?_, fun h0 => absurd h0 (by omega)⟩
  intro hcon
  rw [SimpleDEX.addLiquidity] at hcon
  simp only [] at hcon
  rw [if_pos ⟨ha, hb⟩, if_pos hT, sqrt_eq_nat_sqrt, if_pos hpos] at hcon
  exact absurd hcon (by simp)

/-- Witness for C4 on concrete inputs: the first deposit of (1000, 1000)
mints `sqrt 1000000 = 1000` shares and cannot fail. -/
theorem addLiquidity_first_deposit_sqrt_witness :
    SimpleDEX.addLiquidity DexState.init 1000 1000 7
        = .error .insufficientLiquidityMinted
      ↔ Nat.sqrt (1000 * 1000) = 0 :=
  (addLiquidity_first_deposit_sqrt DexState.init 1000 1000 7
    (by decide) (by decide) rfl).2

/-- C5: on a subsequent deposit (`totalLiquidity > 0`) with positive
amounts, the shares minted are the minimum of the two ratio quotients, the
reserves grow by the full supplied amounts, the owner's ledger entry and
the total grow by the minted shares; the call reverts with
`InsufficientLiquidityMinted` when the minimum is zero. -/
theorem addLiquidity_subsequent_min (st : DexState) (a b toAddr : Nat)
    (ha : 0 < a) (hb : 0 < b) (hT : 0 < st.totalLiquidity)
    (_h0 : 0 < st.reserve0) (_h1 : 0 < st.reserve1) :
    (0 < min (a * st.totalLiquidity / st.reserve0) (b * st.totalLiquidity / st.reserve1) →
      SimpleDEX.addLiquidity st a b toAddr = .ok
        (min (a * st.totalLiquidity / st.reserve0) (b * st.totalLiquidity / st.reserve1),
          { reserve0 := st.reserve0 + a
            reserve1 := st.reserve1 + b
            totalLiquidity := st.totalLiquidity
              + min (a * st.totalLiquidity / st.reserve0) (b * st.totalLiquidity / st.reserve1)
            liquidity := Function.update st.liquidity toAddr (st.liquidity toAddr
              + min (a * st.totalLiquidity / st.reserve0)
                  (b * st.totalLiquidity / st.reserve1)) })) ∧
    (min (a * st.totalLiquidity / st.reserve0) (b * st.totalLiquidity / st.reserve1) = 0 →
      SimpleDEX.addLiquidity st a b toAddr = .error .insufficientLiquidityMinted) := by
  have key : SimpleDEX.addLiquidity st a b toAddr =
      (if 0 < min (a * st.totalLiquidity / st.reserve0) (b * st.totalLiquidity / st.reserve1)
       then .ok
        (min (a * st.totalLiquidity / st.reserve0) (b * st.totalLiquidity / st.reserve1),
          { reserve0 := st.reserve0 + a
            reserve1 := st.reserve1 + b
            totalLiquidity := st.totalLiquidity
              + min (a * st.totalLiquidity / st.reserve0) (b * st.totalLiquidity / st.reserve1)
            liquidity := Function.update st.liquidity toAddr (st.liquidity toAddr
              + min (a * st.totalLiquidity / st.reserve0)
                  (b * st.totalLiquidity / st.reserve1)) })
       else .error .insufficientLiquidityMinted) := by
    rw [SimpleDEX.addLiquidity]
    simp only []
    rw [if_pos ⟨ha, hb⟩, if_neg (by omega : ¬st.totalLiquidity = 0), ite_lt_eq_min]
  constructor
  · intro hm
    rw [key, if_pos hm]
  · intro hm
    rw [key, if_neg (by omega)]

/-- Witness for C5 on concrete inputs: depositing (500, 400) into the
seeded (1000, 1000) pool with 1000 outstanding shares mints
min(500, 400) = 400 shares and adds the full amounts to the reserves. -/
theorem addLiquidity_subsequent_min_witness :
    SimpleDEX.addLiquidity poolSeeded 500 400 3 = .ok
      (400,
        { reserve0 := 1500
          reserve1 := 1400
          totalLiquidity := 1400
          liquidity := Function.update poolSeeded.liquidity 3 400 }) :=
  (addLiquidity_subsequent_min poolSeeded 500 400 3
    (by decide) (by decide) (by decide) (by decide) (by decide)).1 (by decide)

/-- C6: removing `0 < s ≤` the owner's balance pays out the pro-rata floor
amounts of both reserves, reverts with `InsufficientAmounts` exactly when
either amount is zero, and on success debits the reserves, the owner's
ledger entry and the total accordingly. -/
theorem removeLiquidity_pro_rata (st : DexState) (s sender : Nat)
    (hs : 0 < s) (hbal : s ≤ st.liquidity sender) (_hT : 0 < st.totalLiquidity) :
    (SimpleDEX.removeLiquidity st s sender = .error .insufficientAmounts ↔
      (s * st.reserve0 / st.totalLiquidity = 0 ∨ s * st.reserve1 / st.totalLiquidity = 0)) ∧
    (0 < s * st.reserve0 / st.totalLiquidity → 0 < s * st.reserve1 / st.totalLiquidity →
      SimpleDEX.removeLiquidity st s sender = .ok
        ((s * st.reserve0 / st.totalLiquidity, s * st.reserve1 / st.totalLiquidity),
          { reserve0 := st.reserve0 - s * st.reserve0 / st.totalLiquidity
            reserve1 := st.reserve1 - s * st.reserve1 / st.totalLiquidity
            totalLiquidity := st.totalLiquidity - s
            liquidity := Function.update st.liquidity sender
              (st.liquidity sender - s) })) := by
  have key : SimpleDEX.removeLiquidity st s sender =
      (if s * st.reserve0 / st.totalLiquidity > 0 ∧ s * st.reserve1 / st.totalLiquidity > 0
       then .ok
        ((s * st.reserve0 / st.totalLiquidity, s * st.reserve1 / st.totalLiquidity),
          { reserve0 := st.reserve0 - s * st.reserve0 / st.totalLiquidity
            reserve1 := st.reserve1 - s * st.reserve1 / st.totalLiquidity
            totalLiquidity := st.totalLiquidity - s
            liquidity := Function.update st.liquidity sender
              (st.liquidity sender - s) })
       else .error .insufficientAmounts) := by
    rw [SimpleDEX.removeLiquidity]
    simp only []
    rw [if_pos hs, if_pos hbal]
  constructor
  · rw [key]
    constructor
    · intro hcon
      by_contra hz
      push_neg at hz
      rw [if_pos ⟨Nat.pos_of_ne_zero hz.1, Nat.pos_of_ne_zero hz.2⟩] at hcon
      exact absurd hcon (by simp)
    · intro hz
      rw [if_neg (by omega)]
  · intro hz0 hz1
    rw [key, if_pos ⟨hz0, hz1⟩]

/-- Witness for C6 on concrete inputs: owner 0 removes 400 of its 1000
shares from the seeded (1000, 1000) pool and receives (400, 400). -/
theorem removeLiquidity_pro_rata_witness :
    SimpleDEX.removeLiquidity poolSeeded 400 0 = .ok
      ((400, 400),
        { reserve0 := 600
          reserve1 := 600
          totalLiquidity := 600
          liquidity := Function.update poolSeeded.liquidity 0 600 }) :=
  (removeLiquidity_pro_rata poolSeeded 400 0
    (by decide) (by decide) (by decide)).2 (by decide) (by decide)

/-- C7: quoting with `getAmountOut` on the current reserves and then
swapping the same input with `minAmountOut` set to the quoted value never
reverts with the slippage error, in either direction. -/
theorem quote_swap_roundtrip (st : DexState) (amountIn : Nat)
    (h0 : 0 < st.reserve0) (h1 : 0 < st.reserve1) (ha : 0 < amountIn) :
    (∀ q, SimpleDEX.getAmountOut amountIn st.reserve0 st.reserve1 = .ok q →
      SimpleDEX.swapToken0ForToken1 st amountIn q ≠ .error .insufficientOutputAmount) ∧
    (∀ q, SimpleDEX.getAmountOut amountIn st.reserve1 st.reserve0 = .ok q →
      SimpleDEX.swapToken1ForToken0 st amountIn q ≠ .error .insufficientOutputAmount) := by
  constructor
  · intro q hq
    rw [getAmountOut_pos_eval amountIn st.reserve0 st.reserve1 ha h0 h1,
      Except.ok.injEq] at hq
    subst hq
    intro hcon
    rw [SimpleDEX.swapToken0ForToken1] at hcon
    simp only [] at hcon
    rw [if_pos ha, if_pos ⟨h0, h1⟩] at hcon
    norm_num [SimpleDEX.BASIS_POINTS, SimpleDEX.FEE_BASIS_POINTS] at hcon
    split at hcon
    · exact absurd hcon (by simp)
    · exact absurd hcon (by simp)
  · intro q hq
    rw [getAmountOut_pos_eval amountIn st.reserve1 st.reserve0 ha h1 h0,
      Except.ok.injEq] at hq
    subst hq
    intro hcon
    rw [SimpleDEX.swapToken1ForToken0] at hcon
    simp only [] at hcon
    rw [if_pos ha, if_pos ⟨h0, h1⟩] at hcon
    norm_num [SimpleDEX.BASIS_POINTS, SimpleDEX.FEE_BASIS_POINTS] at hcon
    split at hcon
    · exact absurd hcon (by simp)
    · exact absurd hcon (by simp)

/-- Witness for C7 on concrete inputs: quoting 100 against (1000, 1000)
gives 90, and swapping 100 with `minAmountOut = 90` is not a
slippage failure. -/
theorem quote_swap_roundtrip_witness :
    SimpleDEX.swapToken0ForToken1 poolSeeded 100 90
      ≠ .error .insufficientOutputAmount :=
  (quote_swap_roundtrip poolSeeded 100
    (by decide) (by decide) (by decide)).1 90 rfl

/-- C8: in every reachable state the sum of all owners' share balances
equals `totalLiquidity`, and every single operation preserves this
equality. -/
theorem share_conservation_reachable :
    (∀ st, DexState.Reachable st → ShareConservation st) ∧
    (∀ st op, ShareConservation st → ShareConservation (st.step op)) :=
  ⟨fun st h => (reachable_inv st h).1,
   fun st op h => conservation_step st op h⟩

/-- Witness for C8 on a concrete reachable state: the fresh pool, and the
fresh pool after one (reverting) swap call, both conserve shares. -/
theorem share_conservation_reachable_witness :
    ShareConservation DexState.init ∧
    ShareConservation (DexState.init.step (DexOp.swap01 1 0)) :=
  ⟨share_conservation_reachable.1 DexState.init DexState.Reachable.init,
   share_conservation_reachable.2 DexState.init (DexOp.swap01 1 0)
     (share_conservation_reachable.1 DexState.init DexState.Reachable.init)⟩

/-- C9: in every reachable state, outstanding shares imply both reserves
are positive, and shares are outstanding exactly when some owner holds a
nonzero balance. -/
theorem liquidity_seeded_iff (st : DexState) (h : DexState.Reachable st) :
    (0 < st.totalLiquidity → 0 < st.reserve0 ∧ 0 < st.reserve1) ∧
    (0 < st.totalLiquidity ↔ ∃ o, 0 < st.liquidity o) := by
  obtain ⟨hcons, hres⟩ := reachable_inv st h
  refine ⟨hres, ?_, ?_⟩
  · intro hT
    by_contra hcon
    push_neg at hcon
    obtain ⟨S, hsupp, hsum⟩ := hcons
    have hz : ∑ o in S, st.liquidity o = 0 :=
      Finset.sum_eq_zero (fun o _ => by have := hcon o; omega)
    omega
  · intro ho
    obtain ⟨o, ho⟩ := ho
    have := balance_le_total hcons o
    omega

/-- Witness for C9 at the concrete reachable fresh pool. -/
theorem liquidity_seeded_iff_witness :
    (0 < DexState.init.totalLiquidity
      → 0 < DexState.init.reserve0 ∧ 0 < DexState.init.reserve1) ∧
    (0 < DexState.init.totalLiquidity ↔ ∃ o, 0 < DexState.init.liquidity o) :=
  liquidity_seeded_iff DexState.init DexState.Reachable.init

/-- C10: the priced output is always strictly below the output reserve, so
on a seeded pool with positive input the pool-drain branch of either swap
is unreachable (`InsufficientLiquidity` is never returned), and every
successful swap leaves the output reserve strictly positive. -/
theorem swap_output_lt_reserve (st : DexState) (amountIn minOut : Nat)
    (h0 : 0 < st.reserve0) (h1 : 0 < st.reserve1) (ha : 0 < amountIn) :
    (∀ q, SimpleDEX.getAmountOut amountIn st.reserve0 st.reserve1 = .ok q →
      q < st.reserve1) ∧
    (∀ q, SimpleDEX.getAmountOut amountIn st.reserve1 st.reserve0 = .ok q →
      q < st.reserve0) ∧
    SimpleDEX.swapToken0ForToken1 st amountIn minOut ≠ .error .insufficientLiquidity ∧
    SimpleDEX.swapToken1ForToken0 st amountIn minOut ≠ .error .insufficientLiquidity ∧
    (∀ out st2, SimpleDEX.swapToken0ForToken1 st amountIn minOut = .ok (out, st2) →
      0 < st2.reserve1) ∧
    (∀ out st2, SimpleDEX.swapToken1ForToken0 st amountIn minOut = .ok (out, st2) →
      0 < st2.reserve0) := by
  have hlt01 : amountIn * (SimpleDEX.BASIS_POINTS - SimpleDEX.FEE_BASIS_POINTS) * st.reserve1
      / (st.reserve0 * SimpleDEX.BASIS_POINTS
        + amountIn * (SimpleDEX.BASIS_POINTS - SimpleDEX.FEE_BASIS_POINTS))
      < st.reserve1 := by
    norm_num [SimpleDEX.BASIS_POINTS, SimpleDEX.FEE_BASIS_POINTS]
    exact amountOut_lt_reserveOut amountIn st.reserve0 st.reserve1 ha h0 h1
  have hlt10 : amountIn * (SimpleDEX.BASIS_POINTS - SimpleDEX.FEE_BASIS_POINTS) * st.reserve0
      / (st.reserve1 * SimpleDEX.BASIS_POINTS
        + amountIn * (SimpleDEX.BASIS_POINTS - SimpleDEX.FEE_BASIS_POINTS))
      < st.reserve0 := by
    norm_num [SimpleDEX.BASIS_POINTS, SimpleDEX.FEE_BASIS_POINTS]
    exact amountOut_lt_reserveOut amountIn st.reserve1 st.reserve0 ha h1 h0
  refine ⟨?_, ?_, ?_, ?_, ?_, ?_⟩
  · intro q hq
    rw [getAmountOut_pos_eval amountIn st.reserve0 st.reserve1 ha h0 h1,
      Except.ok.injEq] at hq
    subst hq
    exact amountOut_lt_reserveOut amountIn st.reserve0 st.reserve1 ha h0 h1
  · intro q hq
    rw [getAmountOut_pos_eval amountIn st.reserve1 st.reserve0 ha h1 h0,
      Except.ok.injEq] at hq
    subst hq
    exact amountOut_lt_reserveOut amountIn st.reserve1 st.reserve0 ha h1 h0
  · intro hcon
    rw [SimpleDEX.swapToken0ForToken1] at hcon
    simp only [] at hcon
    rw [if_pos ha, if_pos ⟨h0, h1⟩] at hcon
    rw [if_pos hlt01] at hcon
    split at hcon
    · exact absurd hcon (by simp)
    · exact absurd hcon (by simp)
  · intro hcon
    rw [SimpleDEX.swapToken1ForToken0] at hcon
    simp only [] at hcon
    rw [if_pos ha, if_pos ⟨h0, h1⟩] at hcon
    rw [if_pos hlt10] at hcon
    split at hcon
    · exact absurd hcon (by simp)
    · exact absurd hcon (by simp)
  · intro out st2 h
    obtain ⟨-, -, -, -, -, houtlt, hst2⟩ := swap01_ok h
    subst hst2
    show 0 < st.reserve1 - out
    omega
  · intro out st2 h
    obtain ⟨-, -, -, -, -, houtlt, hst2⟩ := swap10_ok h
    subst hst2
    show 0 < st.reserve0 - out
    omega

/-- Witness for C10 on concrete inputs: swapping 100 against the seeded
(1000, 1000) pool is never a liquidity failure. -/
theorem swap_output_lt_reserve_witness :
    SimpleDEX.swapToken0ForToken1 poolSeeded 100 0
      ≠ .error .insufficientLiquidity :=
  (swap_output_lt_reserve poolSeeded 100 0
    (by decide) (by decide) (by decide)).2.2.1
